import Mathlib

set_option maxRecDepth 2048

/-!
Verification development for the minidump-processor crash-analysis core.

The definitions below are a shallow embedding of the Rust sources:

* `src/minidump-processor/src/op_analysis.rs` — the x86_64 instruction
  analyzer (memory-access derivation, instruction-pointer-update
  derivation, privilege classification, address computation);
* `src/minidump-processor/src/processor.rs` — the per-thread processing
  loop of `process_minidump_with_options`;
* the x86 frame-pointer stack walker (whose implementation lives outside
  the vendored sources; it is modelled from the specification, see the
  doc comments marked "Modelled from the spec").

Machine integers (`u64`, `u8`, `i32`, `i64`) are embedded as `Nat`/`Int`
with explicit wrapping modulo `2 ^ 64` where the source wraps.  Rust
`panic!`/`assert!` sites are embedded as a distinguished `Failure.panic`
outcome so that "never panics" claims are statable; `Result<_, E>` is
embedded as `Except` with declared errors under `Failure.err`.
-/

/-- Size of the x86_64 machine word space: `2 ^ 64`. -/
def U64 : Nat := 2 ^ 64

/-- Wrapping addition on `u64` (`u64::wrapping_add`). -/
def wAdd (a b : Nat) : Nat := (a + b) % U64

/-- Wrapping multiplication on `u64` (`u64::wrapping_mul`). -/
def wMul (a b : Nat) : Nat := (a * b) % U64

/-- Wrapping subtraction on `u64`; models the release-profile semantics of
`a - b` on `u64` values (two's-complement wraparound). -/
def wSub (a b : Nat) : Nat := (a + (U64 - b % U64)) % U64

/-- Reinterpretation of a signed integer as `u64` (Rust `as u64` on `i64`). -/
def intAsU64 (d : Int) : Nat := (d % (U64 : Int)).toNat

/-- Sign-extending reinterpretation of a `u32` value as `i64`
(Rust `addr as i32 as i64`). -/
def u32AsI32 (addr : Nat) : Int :=
  if addr % 2 ^ 32 < 2 ^ 31 then (addr % 2 ^ 32 : Int) else (addr % 2 ^ 32 : Int) - 2 ^ 32

/-- Reinterpretation of a `u64` value as `i64` (Rust `addr as i64`). -/
def u64AsI64 (addr : Nat) : Int :=
  if addr % U64 < 2 ^ 63 then (addr % U64 : Int) else (addr % U64 : Int) - (U64 : Int)

/-- Error type for the analyzer (`OpAnalysisError` in `op_analysis.rs`). -/
inductive OpAnalysisError
  | UnsupportedCpuArch
  | ReadThreadInstructionFailed
  | InstructionTruncated
  | DecodeFailed
  | RegisterInvalid
deriving DecidableEq, Repr

/-- A failure of an embedded computation: either a declared analyzer error
(Rust `Err(_)`) or a Rust `panic!`/`assert!` firing. -/
inductive Failure
  | err (e : OpAnalysisError)
  | panic (msg : String)
deriving DecidableEq, Repr

/-- Outcome of an embedded fallible computation. -/
abbrev Outcome (α : Type) := Except Failure α

/-- Predicate stating that an outcome is not a Rust panic. -/
def Outcome.notPanic {α : Type} : Outcome α → Prop
  | .error (.panic _) => False
  | _ => True

/-- The direction of a memory access (`MemoryAccessType` in `op_analysis.rs`). -/
inductive MemoryAccessType
  | Read
  | Write
  | ReadWrite
  | Underivable
deriving DecidableEq, Repr

/-- Details about a memory address of a memory access or an instruction
pointer update (`MemoryAddressInfo` in `op_analysis.rs`). -/
structure MemoryAddressInfo where
  address : Nat
  is_likely_null_pointer_dereference : Bool
  is_likely_guard_page : Bool
deriving DecidableEq, Repr

/-- Details about a memory access performed by an instruction
(`MemoryAccess` in `op_analysis.rs`). -/
structure MemoryAccess where
  address_info : MemoryAddressInfo
  size : Option Nat
  access_type : MemoryAccessType
deriving DecidableEq, Repr

/-- Details about an update of the instruction pointer
(`InstructionPointerUpdate` in `op_analysis.rs`). -/
inductive InstructionPointerUpdate
  | Update (address_info : MemoryAddressInfo)
  | NoUpdate
deriving DecidableEq, Repr

/-- A list of memory accesses (`MemoryAccessList` in `op_analysis.rs`). -/
structure MemoryAccessList where
  accesses : List MemoryAccess
deriving DecidableEq, Repr

/-- The yaxpeax x86_64 opcodes distinguished by `op_analysis.rs`.  The
analyzer only ever pattern-matches on the opcodes listed here; every other
opcode the external decoder can produce is collapsed into `OTHER`. -/
inductive Opcode
  | ADD | CALL | CALLF | CLI | CLTS | CMP | DEC | DIV | HLT | IDIV | IN | INC
  | INS | INT | INTO | INVD | INVEPT | INVLPG | INVVPID | IRET | IRETD | IRETQ
  | JMP | JMPE | JMPF
  | JO | JNO | JB | JNB | JZ | JNZ | JA | JNA | JS | JNS | JP | JNP | JL | JGE | JG | JLE
  | LEA | LGDT | LIDT | LLDT | LMSW | LTR | MONITOR | MOV | MOVAPS | MOVUPS
  | MWAIT | OUT | OUTS | POP | PUSH | RDMSR | RDPMC | RDTSC | RDTSCP | RETF
  | RETURN | STI | SUB | SWAPGS | SYSEXIT | SYSRET | UCOMISS
  | VMCALL | VMCLEAR | VMLAUNCH | VMPTRLD | VMPTRST | VMREAD | VMRESUME
  | VMWRITE | VMXOFF | VMXON | WBINVD | WRMSR | XSETBV
  | OTHER
deriving DecidableEq, Repr

/-- The subset of opcodes supported for deriving precise memory access
behaviour (`AccessDerivableOpcode` in `op_analysis.rs`). -/
inductive AccessDerivableOpcode
  | ADD | CALL | CMP | DEC | INC | JMP | JMPF
  | JO | JNO | JB | JNB | JZ | JNZ | JA | JNA | JS | JNS | JP | JNP | JL | JGE | JG | JLE
  | LEA | MOV | MOVAPS | MOVUPS | POP | PUSH | RETF | RETURN | SUB | UCOMISS
deriving DecidableEq, Repr

/-- Embedding of `AccessDerivableOpcode::from_opcode` in `op_analysis.rs`. -/
def AccessDerivableOpcode.from_opcode : Opcode → Option AccessDerivableOpcode
  | .ADD => some .ADD
  | .CALL => some .CALL
  | .CMP => some .CMP
  | .DEC => some .DEC
  | .INC => some .INC
  | .JMP => some .JMP
  | .JMPF => some .JMPF
  | .JO => some .JO
  | .JNO => some .JNO
  | .JB => some .JB
  | .JNB => some .JNB
  | .JZ => some .JZ
  | .JNZ => some .JNZ
  | .JA => some .JA
  | .JNA => some .JNA
  | .JS => some .JS
  | .JNS => some .JNS
  | .JP => some .JP
  | .JNP => some .JNP
  | .JL => some .JL
  | .JGE => some .JGE
  | .JG => some .JG
  | .JLE => some .JLE
  | .LEA => some .LEA
  | .MOV => some .MOV
  | .MOVAPS => some .MOVAPS
  | .MOVUPS => some .MOVUPS
  | .POP => some .POP
  | .PUSH => some .PUSH
  | .RETF => some .RETF
  | .RETURN => some .RETURN
  | .SUB => some .SUB
  | .UCOMISS => some .UCOMISS
  | _ => none

/-- Register names, as produced by yaxpeax `RegSpec::name()` and consumed by
`MinidumpContext::get_register`. -/
abbrev RegSpec := String

/-- The yaxpeax operand forms distinguished by `op_analysis.rs`
(`MemoryOperandInfo::try_from_operand` and `Operand::is_memory`).  Exotic
memory forms (segment-prefixed, mask-register forms) that the analyzer maps
to no address information are collapsed into `OtherMem`; all non-memory,
non-register forms (immediates, relative branch displacements) are
collapsed into `OtherNonMem`. -/
inductive Operand
  | Register (reg : RegSpec)
  | AbsoluteU32 (addr : Nat)
  | AbsoluteU64 (addr : Nat)
  | MemDeref (base : RegSpec)
  | Disp (base : RegSpec) (disp : Int)
  | MemIndexScale (index : RegSpec) (scale : Nat)
  | MemIndexScaleDisp (index : RegSpec) (scale : Nat) (disp : Int)
  | MemBaseIndexScale (base : RegSpec) (index : RegSpec) (scale : Nat)
  | MemBaseIndexScaleDisp (base : RegSpec) (index : RegSpec) (scale : Nat) (disp : Int)
  | OtherMem
  | OtherNonMem
deriving DecidableEq, Repr

/-- yaxpeax `Operand::is_memory`: true exactly for memory operand forms. -/
def Operand.is_memory : Operand → Bool
  | .Register _ => false
  | .OtherNonMem => false
  | _ => true

/-- A decoded x86_64 instruction as the analyzer consumes it: the opcode,
the explicit operand list (`operand_count` / `operand(idx)`), and
`mem_size().map(|a| a.bytes_size())` — `none` when the instruction performs
no memory access, `some none` when the access size is unknown. -/
structure Instruction where
  opcode : Opcode
  operands : List Operand
  mem_size : Option (Option Nat)
deriving DecidableEq, Repr

/-- CPU architecture tag of a thread context (`MinidumpRawContext` variants
relevant to the analyzer). -/
inductive RawContextArch
  | Amd64
  | Other
deriving DecidableEq, Repr

/-- Modelled from the spec: the per-thread CPU context.  The spec's context
model exposes `instruction_pointer` and name-addressed register reads with
a validity mask; reading a register that is not valid yields `none`
(surfaced by the analyzer as `RegisterInvalid`).  The concrete
`MinidumpContext` type lives in the `minidump` crate, outside the vendored
sources. -/
structure MinidumpContext where
  arch : RawContextArch
  instruction_pointer : Nat
  get_register : RegSpec → Option Nat

/-- Embedding of `ContextExt::get_regspec` in `op_analysis.rs`: read a register by its
yaxpeax name, failing with `RegisterInvalid` when it is not valid. -/
def MinidumpContext.get_regspec (c : MinidumpContext) (reg : RegSpec) : Outcome Nat :=
  match c.get_register reg with
  | some v => .ok v
  | none => .error (.err .RegisterInvalid)

/-- Modelled from the spec: a captured memory region `{ base_address,
bytes }` (the `MinidumpMemory`/`UnifiedMemory` view of the `minidump`
crate, outside the vendored sources).  Reads outside the region return
absence, not an error. -/
structure MinidumpMemory where
  base_address : Nat
  bytes : List Nat

/-- Value of a little-endian byte sequence. -/
def leValue : List Nat → Nat
  | [] => 0
  | b :: rest => b % 256 + 256 * leValue rest

/-- Whether an address falls inside the region. -/
def MinidumpMemory.containsAddr (m : MinidumpMemory) (addr : Nat) : Bool :=
  m.base_address ≤ addr && addr < m.base_address + m.bytes.length

/-- Modelled from the spec: typed pointer-sized read at an address
(`get_memory_at_address::<u64>`), little-endian; absence when the 8 bytes
are not fully contained in the region. -/
def MinidumpMemory.get_u64_at (m : MinidumpMemory) (addr : Nat) : Option Nat :=
  if m.base_address ≤ addr && addr + 8 ≤ m.base_address + m.bytes.length then
    some (leValue ((m.bytes.drop (addr - m.base_address)).take 8))
  else none

/-- Modelled from the spec: typed 4-byte read at an address, little-endian
(used by the x86 stack walker model). -/
def MinidumpMemory.get_u32_at (m : MinidumpMemory) (addr : Nat) : Option Nat :=
  if m.base_address ≤ addr && addr + 4 ≤ m.base_address + m.bytes.length then
    some (leValue ((m.bytes.drop (addr - m.base_address)).take 4))
  else none

/-- Modelled from the spec: the address-indexed list of captured memory
regions (`UnifiedMemoryList` of the `minidump` crate). -/
structure UnifiedMemoryList where
  regions : List MinidumpMemory

/-- Modelled from the spec: "region containing address A" lookup. -/
def UnifiedMemoryList.memory_at_address (ml : UnifiedMemoryList) (addr : Nat) :
    Option MinidumpMemory :=
  ml.regions.find? (fun m => m.containsAddr addr)

/-- The boolean instruction properties (`InstructionProperties` in
`op_analysis.rs`).  The analyzer's `instruction_str` field (the external
disassembler's `Display` output) is not modelled. -/
structure InstructionProperties where
  is_access_derivable : Bool
  is_division : Bool
  is_privileged : Bool
  is_only_gpf_when_non_canonical : Bool
deriving DecidableEq, Repr

/-- Embedding of `is_access_derivable` in `op_analysis.rs`. -/
def Opcode.is_access_derivable (opcode : Opcode) : Bool :=
  (AccessDerivableOpcode.from_opcode opcode).isSome

/-- Embedding of `InstructionProperties::is_division` in `op_analysis.rs`. -/
def Instruction.is_division (instruction : Instruction) : Bool :=
  match instruction.opcode with
  | .DIV | .IDIV => true
  | _ => false

/-- Embedding of `InstructionProperties::is_privileged` in `op_analysis.rs`: membership
of the opcode in the enumerated ring-0 set (note that the source includes
the general `MOV` opcode in this set). -/
def Instruction.is_privileged (instruction : Instruction) : Bool :=
  match instruction.opcode with
  | .CLI | .CLTS | .HLT | .IN | .INS | .INT | .INTO | .INVD | .INVEPT
  | .INVLPG | .INVVPID | .IRET | .IRETD | .IRETQ | .LGDT | .LIDT | .LLDT
  | .LMSW | .LTR | .MONITOR | .MOV | .MWAIT | .OUT | .OUTS | .RDMSR
  | .RDPMC | .RDTSC | .RDTSCP | .RETF | .STI | .SWAPGS | .SYSEXIT
  | .SYSRET | .VMCALL | .VMCLEAR | .VMLAUNCH | .VMPTRLD | .VMPTRST
  | .VMREAD | .VMRESUME | .VMWRITE | .VMXOFF | .VMXON | .WBINVD | .WRMSR
  | .XSETBV => true
  | _ => false

/-- Embedding of `InstructionProperties::is_only_gpf_when_non_canonical` in
`op_analysis.rs`: false for non-derivable opcodes, and false for the
aligned-move variant `MOVAPS`. -/
def Instruction.is_only_gpf_when_non_canonical (instruction : Instruction) : Bool :=
  match AccessDerivableOpcode.from_opcode instruction.opcode with
  | none => false
  | some opcode =>
    match opcode with
    | .MOVAPS => false
    | _ => true

/-- Embedding of `InstructionProperties::from_instruction` in `op_analysis.rs`. -/
def InstructionProperties.from_instruction (instruction : Instruction) :
    InstructionProperties :=
  { is_access_derivable := instruction.opcode.is_access_derivable
    is_division := instruction.is_division
    is_privileged := instruction.is_privileged
    is_only_gpf_when_non_canonical :=
      instruction.is_only_gpf_when_non_canonical }

/-- Decomposed memory-operand information (`MemoryOperandInfo` in
`op_analysis.rs`). -/
structure MemoryOperandInfo where
  base_reg : Option RegSpec := none
  index_reg : Option RegSpec := none
  scale : Option Nat := none
  disp : Option Int := none
deriving DecidableEq, Repr

/-- Embedding of `MemoryOperandInfo::try_from_operand` in `op_analysis.rs`: extract the
base register, index register, scale and displacement from a yaxpeax
operand; `none` for operand forms the analyzer does not decompose. -/
def MemoryOperandInfo.try_from_operand : Operand → Option MemoryOperandInfo
  | .AbsoluteU32 addr => some { disp := some (u32AsI32 addr) }
  | .AbsoluteU64 addr => some { disp := some (u64AsI64 addr) }
  | .MemDeref base => some { base_reg := some base }
  | .Disp base disp => some { base_reg := some base, disp := some disp }
  | .MemIndexScale index scale => some { index_reg := some index, scale := some scale }
  | .MemIndexScaleDisp index scale disp =>
    some { index_reg := some index, scale := some scale, disp := some disp }
  | .MemBaseIndexScale base index scale =>
    some { base_reg := some base, index_reg := some index, scale := some scale }
  | .MemBaseIndexScaleDisp base index scale disp =>
    some { base_reg := some base, index_reg := some index, scale := some scale,
           disp := some disp }
  | _ => none

/-- Embedding of `MemoryAddressInfo::try_from_operand` in `op_analysis.rs`: compute the
accessed address as base `+` index `*` scale `+` displacement, wrapping on
`u64`, flagging a likely null-pointer dereference when the base register
holds zero.  Fails with `RegisterInvalid` when a named register is not
valid in the context. -/
def MemoryAddressInfo.try_from_operand (op : Operand) (context : MinidumpContext) :
    Outcome (Option MemoryAddressInfo) :=
  match MemoryOperandInfo.try_from_operand op with
  | none => .ok none
  | some op_info =>
    let baseRes : Outcome (Nat × Bool) :=
      match op_info.base_reg with
      | none => .ok (0, false)
      | some reg =>
        match context.get_register reg with
        | some base => .ok (base, base == 0)
        | none => .error (.err .RegisterInvalid)
    match baseRes with
    | .error e => .error e
    | .ok (addr1, nullFlag) =>
      let idxRes : Outcome Nat :=
        match op_info.index_reg with
        | none => .ok addr1
        | some reg =>
          match context.get_register reg with
          | some index => .ok (wAdd addr1 (wMul index (op_info.scale.getD 1)))
          | none => .error (.err .RegisterInvalid)
      match idxRes with
      | .error e => .error e
      | .ok addr2 =>
        .ok (some
          { address := wAdd addr2 (intAsU64 (op_info.disp.getD 0))
            is_likely_null_pointer_dereference := nullFlag
            is_likely_guard_page := false })

/-- The explicit-operand direction table of
`MemoryAccessList::add_derivable_opcode_explicit_access` in
`op_analysis.rs`: the access type assigned to a memory operand at position
`idx`, `none` for LEA positions carrying no memory access, and a panic for
operand positions the source asserts can never carry a memory operand. -/
def derivableExplicitAccessType (opcode : AccessDerivableOpcode) (idx : Nat) :
    Outcome (Option MemoryAccessType) :=
  match opcode with
  | .ADD | .SUB =>
    match idx with
    | 0 => .ok (some .ReadWrite)
    | 1 => .ok (some .Read)
    | _ => .error (.panic "add/sub instruction had unexpected memory operand")
  | .CALL | .JMP | .JMPF | .PUSH =>
    match idx with
    | 0 => .ok (some .Read)
    | _ => .error (.panic "call/jmp/push instruction had unexpected memory operand")
  | .CMP | .UCOMISS =>
    match idx with
    | 0 | 1 => .ok (some .Read)
    | _ => .error (.panic "cmp instruction had unexpected memory operand")
  | .DEC | .INC =>
    match idx with
    | 0 => .ok (some .ReadWrite)
    | _ => .error (.panic "dec/inc instruction had unexpected memory operand")
  | .POP =>
    match idx with
    | 0 => .ok (some .Write)
    | _ => .error (.panic "pop instruction had unexpected memory operand")
  | .MOV | .MOVAPS | .MOVUPS =>
    match idx with
    | 0 => .ok (some .Write)
    | 1 => .ok (some .Read)
    | _ => .error (.panic "mov/movaps/movups instruction had unexpected memory operand")
  | .LEA =>
    match idx with
    | 0 | 1 => .ok none
    | _ => .error (.panic "lea instruction had unexpected memory operand")
  | .RETURN | .RETF =>
    .error (.panic "ret/iret instruction had unexpected memory operand")
  | .JO | .JNO | .JB | .JNB | .JZ | .JNZ | .JA | .JNA | .JS | .JNS | .JP | .JNP
  | .JL | .JGE | .JG | .JLE =>
    .error (.panic "jcc instruction had unexpected memory operand")

/-- Embedding of `MemoryAccessList::add_derivable_opcode_explicit_access` in
`op_analysis.rs`, returning the (zero or one) accesses pushed for the
operand at position `idx` instead of mutating a list. -/
def MemoryAccessList.add_derivable_opcode_explicit_access
    (opcode : AccessDerivableOpcode) (operand : Operand) (idx : Nat)
    (mem_size : Option Nat) (context : MinidumpContext) :
    Outcome (List MemoryAccess) :=
  if !operand.is_memory then .ok []
  else
    match derivableExplicitAccessType opcode idx with
    | .error e => .error e
    | .ok none => .ok []
    | .ok (some access_type) =>
      match MemoryAddressInfo.try_from_operand operand context with
      | .error e => .error e
      | .ok none => .ok []
      | .ok (some address_info) =>
        .ok [{ address_info, size := mem_size, access_type }]

/-- The `for idx in 0..instruction.operand_count()` loop of
`MemoryAccessList::add_derivable_opcode_accesses`, accumulating the
explicit accesses in operand order. -/
def MemoryAccessList.explicitDerivableLoop (opcode : AccessDerivableOpcode)
    (operands : List Operand) (idx : Nat) (mem_size : Option Nat)
    (context : MinidumpContext) : Outcome (List MemoryAccess) :=
  match operands with
  | [] => .ok []
  | op :: rest =>
    match MemoryAccessList.add_derivable_opcode_explicit_access opcode op idx mem_size context with
    | .error e => .error e
    | .ok here =>
      match MemoryAccessList.explicitDerivableLoop opcode rest (idx + 1) mem_size context with
      | .error e => .error e
      | .ok there => .ok (here ++ there)

/-- Embedding of `MemoryAccessList::add_derivable_opcode_implicit_access` in
`op_analysis.rs`: the implicit stack accesses of CALL/PUSH (a Write at
`rsp - 8`, wrapping) and of POP/RETF/RETURN (a Read at `rsp`), silently
skipped when `rsp` is not valid.  The source never fails here. -/
def MemoryAccessList.add_derivable_opcode_implicit_access
    (opcode : AccessDerivableOpcode) (mem_size : Option Nat)
    (context : MinidumpContext) : List MemoryAccess :=
  let push_implicit_access := fun (address : Nat) (access_type : MemoryAccessType) =>
    [{ address_info :=
         { address
           is_likely_null_pointer_dereference := address == 0
           is_likely_guard_page := false }
       size := mem_size
       access_type : MemoryAccess }]
  match opcode with
  | .CALL | .PUSH =>
    match context.get_register "rsp" with
    | some rsp => push_implicit_access (wSub rsp 8) .Write
    | none => []
  | .POP | .RETF | .RETURN =>
    match context.get_register "rsp" with
    | some rsp => push_implicit_access rsp .Read
    | none => []
  | _ => []

/-- Embedding of `MemoryAccessList::add_derivable_opcode_accesses` in `op_analysis.rs`:
shortcut to the empty list when the instruction performs no memory access,
otherwise the explicit accesses followed by the implicit stack accesses. -/
def MemoryAccessList.add_derivable_opcode_accesses
    (opcode : AccessDerivableOpcode) (instruction : Instruction)
    (context : MinidumpContext) : Outcome (List MemoryAccess) :=
  match instruction.mem_size with
  | none => .ok []
  | some mem_size =>
    match MemoryAccessList.explicitDerivableLoop opcode instruction.operands 0 mem_size context with
    | .error e => .error e
    | .ok explicit =>
      .ok (explicit ++
        MemoryAccessList.add_derivable_opcode_implicit_access opcode mem_size context)

/-- Embedding of `MemoryAccessList::add_underivable_opcode_explicit_access` in
`op_analysis.rs`: a memory operand of a non-whitelisted opcode is recorded
with access type `Underivable`. -/
def MemoryAccessList.add_underivable_opcode_explicit_access
    (operand : Operand) (mem_size : Option Nat) (context : MinidumpContext) :
    Outcome (List MemoryAccess) :=
  if !operand.is_memory then .ok []
  else
    match MemoryAddressInfo.try_from_operand operand context with
    | .error e => .error e
    | .ok none => .ok []
    | .ok (some address_info) =>
      .ok [{ address_info, size := mem_size, access_type := .Underivable }]

/-- The operand loop of `MemoryAccessList::add_underivable_opcode_accesses`. -/
def MemoryAccessList.underivableLoop (operands : List Operand)
    (mem_size : Option Nat) (context : MinidumpContext) :
    Outcome (List MemoryAccess) :=
  match operands with
  | [] => .ok []
  | op :: rest =>
    match MemoryAccessList.add_underivable_opcode_explicit_access op mem_size context with
    | .error e => .error e
    | .ok here =>
      match MemoryAccessList.underivableLoop rest mem_size context with
      | .error e => .error e
      | .ok there => .ok (here ++ there)

/-- Embedding of `MemoryAccessList::add_underivable_opcode_accesses` in `op_analysis.rs`. -/
def MemoryAccessList.add_underivable_opcode_accesses
    (instruction : Instruction) (context : MinidumpContext) :
    Outcome (List MemoryAccess) :=
  match instruction.mem_size with
  | none => .ok []
  | some mem_size =>
    MemoryAccessList.underivableLoop instruction.operands mem_size context

/-- Embedding of `MemoryAccessList::from_instruction` in `op_analysis.rs`. -/
def MemoryAccessList.from_instruction (instruction : Instruction)
    (context : MinidumpContext) : Outcome MemoryAccessList :=
  match AccessDerivableOpcode.from_opcode instruction.opcode with
  | some opcode =>
    match MemoryAccessList.add_derivable_opcode_accesses opcode instruction context with
    | .error e => .error e
    | .ok accesses => .ok { accesses }
  | none =>
    match MemoryAccessList.add_underivable_opcode_accesses instruction context with
    | .error e => .error e
    | .ok accesses => .ok { accesses }

/-- Embedding of `InstructionPointerUpdate::from_instruction` in `op_analysis.rs`:
derive the instruction-pointer update performed by the instruction.
`Ok(None)` means the update is left undetermined. -/
def InstructionPointerUpdate.from_instruction (instruction : Instruction)
    (context : MinidumpContext) (memory_list : Option UnifiedMemoryList)
    (stack_memory : Option MinidumpMemory) :
    Outcome (Option InstructionPointerUpdate) :=
  let rip_update := fun (address : Nat) =>
    some (InstructionPointerUpdate.Update
      { address
        is_likely_null_pointer_dereference := address == 0
        is_likely_guard_page := false })
  match instruction.opcode with
  | .CALL | .CALLF | .JMP | .JMPF | .JMPE =>
    match instruction.operands with
    | [Operand.Register reg] =>
      match context.get_regspec reg with
      | .error e => .error e
      | .ok v => .ok (rip_update v)
    | [other_operand] =>
      match MemoryAddressInfo.try_from_operand other_operand context with
      | .error e => .error e
      | .ok (some address_info) =>
        match (memory_list.bind
            (fun ml => ml.memory_at_address address_info.address)).bind
            (fun mem => mem.get_u64_at address_info.address) with
        | some address => .ok (rip_update address)
        | none => .ok none
      | .ok none => .ok none
    | _ => .error (.panic "call/jmp instruction had incorrect operand count")
  | .RETURN | .RETF | .IRET | .IRETD | .IRETQ =>
    match context.get_register "rsp", stack_memory with
    | some rsp, some stack =>
      match stack.get_u64_at rsp with
      | some address => .ok (rip_update address)
      | none => .ok none
    | _, _ => .ok none
  | .JO | .JNO | .JB | .JNB | .JZ | .JNZ | .JA | .JNA | .JS | .JNS | .JP | .JNP
  | .JL | .JGE | .JG | .JLE => .ok none
  | _ => .ok (some .NoUpdate)

/-- Insertion into the register set of `get_registers` (a `BTreeSet` in the
source; membership is what matters to the analyzer's consumers). -/
def insertReg (l : List RegSpec) (r : RegSpec) : List RegSpec :=
  if l.contains r then l else l ++ [r]

/-- Embedding of `get_registers` in `op_analysis.rs`: the base and index registers named
by the instruction's memory operands. -/
def get_registers (i : Instruction) : List RegSpec :=
  i.operands.foldl
    (fun acc op =>
      match MemoryOperandInfo.try_from_operand op with
      | none => acc
      | some reginfo =>
        let acc :=
          match reginfo.base_reg with
          | some reg => insertReg acc reg
          | none => acc
        match reginfo.index_reg with
        | some reg => insertReg acc reg
        | none => acc)
    []

/-- The results of analyzing a CPU instruction (`OpAnalysis` in
`op_analysis.rs`).  `instruction_str` (the external disassembler's
`Display` output) is not modelled. -/
structure OpAnalysis where
  instruction_properties : InstructionProperties
  memory_access_list : Option MemoryAccessList
  instruction_pointer_update : Option InstructionPointerUpdate
  registers : List RegSpec
deriving DecidableEq, Repr

/-- The `.map_err(|e| tracing::warn!(..)).ok()` pattern of
`analyze_instruction`: a declared analyzer error of a sub-analysis is
downgraded to `none`; a panic still propagates. -/
def catchAnalysisError {α : Type} : Outcome α → Outcome (Option α)
  | .ok a => .ok (some a)
  | .error (.err _) => .ok none
  | .error (.panic m) => .error (.panic m)

/-- Embedding of `amd64::analyze_instruction` in `op_analysis.rs`, applied to an
already-decoded instruction (the byte-level decode is performed by the
external yaxpeax decoder; see `analyze_thread_context`). -/
def analyze_instruction (decoded_instruction : Instruction)
    (context : MinidumpContext) (memory_list : Option UnifiedMemoryList)
    (stack_memory : Option MinidumpMemory) : Outcome OpAnalysis :=
  match catchAnalysisError
      (MemoryAccessList.from_instruction decoded_instruction context) with
  | .error e => .error e
  | .ok memory_access_list =>
    match catchAnalysisError
        (InstructionPointerUpdate.from_instruction decoded_instruction context
          memory_list stack_memory) with
    | .error e => .error e
    | .ok ipu =>
      .ok { instruction_properties :=
              InstructionProperties.from_instruction decoded_instruction
            memory_access_list
            instruction_pointer_update := ipu.join
            registers := get_registers decoded_instruction }

/-- Embedding of `get_thread_instruction_bytes` in `op_analysis.rs`: the byte suffix of
the region containing the instruction pointer, or
`ReadThreadInstructionFailed`. -/
def get_thread_instruction_bytes (context : MinidumpContext)
    (memory_list : UnifiedMemoryList) : Outcome (List Nat) :=
  match memory_list.memory_at_address context.instruction_pointer with
  | some memory => .ok (memory.bytes.drop (context.instruction_pointer - memory.base_address))
  | none => .error (.err .ReadThreadInstructionFailed)

/-- Embedding of `analyze_thread_context` in `op_analysis.rs`, parametrized by the
external yaxpeax decoder `decode` (whose declared failures are surfaced as
`InstructionTruncated` or `DecodeFailed`). -/
def analyze_thread_context (decode : List Nat → Except OpAnalysisError Instruction)
    (context : MinidumpContext) (memory_list : UnifiedMemoryList)
    (stack_memory : Option MinidumpMemory) : Outcome OpAnalysis :=
  match get_thread_instruction_bytes context memory_list with
  | .error e => .error e
  | .ok instruction_bytes =>
    match context.arch with
    | .Amd64 =>
      match decode instruction_bytes with
      | .ok decoded_instruction =>
        analyze_instruction decoded_instruction context (some memory_list) stack_memory
      | .error e => .error (.err e)
    | .Other => .error (.err .UnsupportedCpuArch)

/-- The operand positions at which the x86_64 decoder can attach a memory
operand for each access-derivable opcode: exactly the positions for which
`derivableExplicitAccessType` does not panic. -/
def allowedMemIdx (opcode : AccessDerivableOpcode) (idx : Nat) : Bool :=
  match opcode with
  | .ADD | .SUB | .CMP | .UCOMISS | .MOV | .MOVAPS | .MOVUPS | .LEA => idx < 2
  | .CALL | .JMP | .JMPF | .PUSH | .POP | .DEC | .INC => idx == 0
  | .RETURN | .RETF => false
  | .JO | .JNO | .JB | .JNB | .JZ | .JNZ | .JA | .JNA | .JS | .JNS | .JP | .JNP
  | .JL | .JGE | .JG | .JLE => false

/-- Memory operands appear only at allowed positions, counting from `idx`. -/
def shapeFrom (opcode : AccessDerivableOpcode) : List Operand → Nat → Bool
  | [], _ => true
  | op :: rest, idx =>
    (!op.is_memory || allowedMemIdx opcode idx) && shapeFrom opcode rest (idx + 1)

/-- The output invariant of the external x86_64 decoder assumed by the
analyzer (enforced in the source by `panic!`/`assert!` sites): memory
operands appear only at the operand positions possible in x86_64 machine
code for each access-derivable opcode, and CALL/JMP-family instructions
carry exactly one operand. -/
def decoderShape (i : Instruction) : Bool :=
  (match AccessDerivableOpcode.from_opcode i.opcode with
   | some opcode => shapeFrom opcode i.operands 0
   | none => true) &&
  (match i.opcode with
   | .CALL | .CALLF | .JMP | .JMPF | .JMPE => i.operands.length == 1
   | _ => true)

/-- Whether every register named by the operand's memory decomposition is
valid in the context. -/
def operandRegsValid (op : Operand) (context : MinidumpContext) : Bool :=
  match MemoryOperandInfo.try_from_operand op with
  | none => true
  | some info =>
    (match info.base_reg with
     | some reg => (context.get_register reg).isSome
     | none => true) &&
    (match info.index_reg with
     | some reg => (context.get_register reg).isSome
     | none => true)

/-- Whether every register named by any memory operand of the list is
valid in the context. -/
def allOperandRegsValid (operands : List Operand) (context : MinidumpContext) : Bool :=
  operands.all (fun op => operandRegsValid op context)

/-- The fixed explicit-operand direction table exactly as the spec words
it (refinement target for `derivableExplicitAccessType`): ADD/SUB operand
0 ReadWrite, operand 1 Read; MOV/MOVAPS/MOVUPS operand 0 Write, operand 1
Read; CMP/UCOMISS operands Read; INC/DEC operand 0 ReadWrite;
PUSH/CALL/JMP operand Read; POP operand 0 Write; LEA no access; Jcc and
RET-family no memory access. -/
def specAccessTable (opcode : AccessDerivableOpcode) (idx : Nat) :
    Option MemoryAccessType :=
  match opcode with
  | .ADD | .SUB =>
    match idx with
    | 0 => some .ReadWrite
    | 1 => some .Read
    | _ => none
  | .MOV | .MOVAPS | .MOVUPS =>
    match idx with
    | 0 => some .Write
    | 1 => some .Read
    | _ => none
  | .CMP | .UCOMISS =>
    match idx with
    | 0 | 1 => some .Read
    | _ => none
  | .INC | .DEC =>
    match idx with
    | 0 => some .ReadWrite
    | _ => none
  | .PUSH | .CALL | .JMP | .JMPF =>
    match idx with
    | 0 => some .Read
    | _ => none
  | .POP =>
    match idx with
    | 0 => some .Write
    | _ => none
  | _ => none

/-- The explicit accesses the spec's table predicts for an operand list:
one access per memory operand whose position the table maps to a
direction and whose address can be computed from the context. -/
def specExplicitAccesses (opcode : AccessDerivableOpcode)
    (operands : List Operand) (idx : Nat) (mem_size : Option Nat)
    (context : MinidumpContext) : List MemoryAccess :=
  match operands with
  | [] => []
  | op :: rest =>
    (if op.is_memory then
      match specAccessTable opcode idx with
      | some access_type =>
        match MemoryAddressInfo.try_from_operand op context with
        | .ok (some address_info) => [{ address_info, size := mem_size, access_type }]
        | _ => []
      | none => []
    else []) ++ specExplicitAccesses opcode rest (idx + 1) mem_size context

/-- The `info` classification of a produced call stack (`CallStackInfo` of
the process-state model). -/
inductive CallStackInfo
  | Ok
  | DumpThreadSkipped
  | MissingContext
  | MissingMemory
  | InvalidContext
  | UnsupportedCpu
deriving DecidableEq, Repr

/-- A produced call stack as the processor loop manipulates it.  Frames are
abstract tokens here: the loop never inspects them, it only attaches the
thread name and last-error value to whatever the walker returned. -/
structure ProcCallStack where
  info : CallStackInfo
  frames : List Nat
  thread_name : Option String
  last_error_value : Option Nat
deriving DecidableEq, Repr

/-- Modelled from the spec: `CallStack::with_info` (in `process_state.rs`,
outside the vendored sources) creates a stack carrying only the given
`info` and no frames — the spec requires the dump thread's stack to have
`info == DumpThreadSkipped` and zero frames. -/
def ProcCallStack.with_info (info : CallStackInfo) : ProcCallStack :=
  { info, frames := [], thread_name := none, last_error_value := none }

/-- A thread record as the processor loop consumes it: the thread id, the
optional captured context and inline stack-memory descriptor (abstract
tokens), and the stack base address used for the memory-list fallback. -/
structure MinidumpThreadRec where
  thread_id : Nat
  context : Option Nat
  stack : Option Nat
  stack_start : Nat
deriving DecidableEq, Repr

/-- The per-thread body of the loop of `process_minidump_with_options` in
`processor.rs`: skip the dump-writing thread, otherwise choose the context
(exception context for the crashing/requesting thread, preferring the
exception stream's thread id over the Breakpad-info requesting id), choose
the stack memory (inline descriptor, falling back to a memory-list lookup
by stack base address), walk, and attach the thread name and last-error
value.  `walk_stack` and the name/last-error readers live outside the
vendored sources and are parameters.  The bookkeeping of the
`requesting_thread` index is not needed by the modelled claims and is
omitted. -/
def processOneThread
    (dump_thread_id crashing_thread_id requesting_thread_id : Option Nat)
    (exception_context : Option Nat)
    (memory_at : Nat → Option Nat)
    (walk : Option Nat → Option Nat → ProcCallStack)
    (get_name : Nat → Option String)
    (get_last_error : Nat → Option Nat)
    (thread : MinidumpThreadRec) : ProcCallStack :=
  if dump_thread_id = some thread.thread_id then
    ProcCallStack.with_info .DumpThreadSkipped
  else
    let context :=
      if (crashing_thread_id.or requesting_thread_id) = some thread.thread_id then
        exception_context.or thread.context
      else thread.context
    let stack_mem := thread.stack.or (memory_at thread.stack_start)
    let stack := walk context stack_mem
    { stack with
      thread_name := get_name thread.thread_id
      last_error_value := get_last_error thread.thread_id }

/-- The thread loop of `process_minidump_with_options` in `processor.rs`:
one output stack per input thread, pushed in input order. -/
def processThreads
    (dump_thread_id crashing_thread_id requesting_thread_id : Option Nat)
    (exception_context : Option Nat)
    (memory_at : Nat → Option Nat)
    (walk : Option Nat → Option Nat → ProcCallStack)
    (get_name : Nat → Option String)
    (get_last_error : Nat → Option Nat)
    (threads : List MinidumpThreadRec) : List ProcCallStack :=
  threads.map
    (processOneThread dump_thread_id crashing_thread_id requesting_thread_id
      exception_context memory_at walk get_name get_last_error)

/-- Provenance of a reconstructed frame (`FrameTrust`), ordered by
decreasing reliability. -/
inductive FrameTrust
  | Context
  | CallFrameInfo
  | FramePointer
  | Scan
  | Prewalked
deriving DecidableEq, Repr

/-- A loaded module: base address, size, and code file name. -/
structure MinidumpModule where
  base_address : Nat
  size : Nat
  code_file : String
deriving DecidableEq, Repr

/-- Address-range lookup in the module list. -/
def moduleAt (modules : List MinidumpModule) (addr : Nat) : Option MinidumpModule :=
  modules.find? (fun m => m.base_address ≤ addr && addr < m.base_address + m.size)

/-- An x86 stack frame as the walker model produces it: the recorded
instruction, the provenance trust, the frame's `%ebp`/`%esp` register
values, and the module attributed to the instruction. -/
structure StackFrameX86 where
  instruction : Nat
  trust : FrameTrust
  ebp : Nat
  esp : Nat
  module : Option MinidumpModule
deriving DecidableEq, Repr

/-- Modelled from the spec: the x86 frame-pointer strategy of the stack
walker (its implementation is outside the vendored sources; this follows
spec section 4.1).  A traditional frame saves the caller's `%ebp` at
`*ebp` and the return address at `*(ebp + 4)`.  The recorded instruction
of a recovered frame is the return address minus 1 (address-of-call
adjustment).  The walk stops when the reads fail, the return address is 0
or its adjusted value lies outside all modules, the caller's stack pointer
is not strictly greater than the callee's, or the frame bound is
exhausted. -/
def walkChainX86 (fuel : Nat) (stack : MinidumpMemory)
    (modules : List MinidumpModule) (ebp esp : Nat) : List StackFrameX86 :=
  match fuel with
  | 0 => []
  | fuel + 1 =>
    match stack.get_u32_at ebp, stack.get_u32_at (ebp + 4) with
    | some saved_ebp, some ret =>
      if ret = 0 then []
      else
        match moduleAt modules (ret - 1) with
        | none => []
        | some m =>
          let caller_esp := ebp + 8
          if caller_esp ≤ esp then []
          else
            { instruction := ret - 1
              trust := .FramePointer
              ebp := saved_ebp
              esp := caller_esp
              module := some m } ::
              walkChainX86 fuel stack modules saved_ebp caller_esp
    | _, _ => []

/-- Modelled from the spec: `walk_stack` for x86 with frame-pointer
unwinding (spec section 4.1): seed the context frame (trust `Context`,
instruction = the context's instruction pointer), then chain frame-pointer
steps up to the default maximum of 1024 frames. -/
def walk_stack_x86 (eip esp ebp : Nat) (stack : MinidumpMemory)
    (modules : List MinidumpModule) : List StackFrameX86 :=
  { instruction := eip
    trust := .Context
    ebp
    esp
    module := moduleAt modules eip } :: walkChainX86 1024 stack modules ebp esp

/-- An outcome is clean when it is a success or a declared error — that is,
the computation did not hit a Rust panic site. -/
def Outcome.clean {α : Type} (o : Outcome α) : Prop :=
  (∃ v, o = .ok v) ∨ ∃ e, o = .error (.err e)

/-- Address computation from an operand is success or a declared
`RegisterInvalid` error; it contains no panic site. -/
theorem tryFromOperand_clean (op : Operand) (context : MinidumpContext) :
    Outcome.clean (MemoryAddressInfo.try_from_operand op context) := by
  unfold MemoryAddressInfo.try_from_operand
  rcases h : MemoryOperandInfo.try_from_operand op with _ | ⟨breg, ireg, scale, disp⟩
  · exact Or.inl ⟨none, rfl⟩
  · rcases breg with _ | breg <;> rcases ireg with _ | ireg <;> dsimp only
    · exact Or.inl ⟨_, rfl⟩
    · rcases hi : context.get_register ireg with _ | iv <;> simp only [hi]
      · exact Or.inr ⟨_, rfl⟩
      · exact Or.inl ⟨_, rfl⟩
    · rcases hb : context.get_register breg with _ | bv <;> simp only [hb]
      · exact Or.inr ⟨_, rfl⟩
      · exact Or.inl ⟨_, rfl⟩
    · rcases hb : context.get_register breg with _ | bv <;> simp only [hb]
      · exact Or.inr ⟨_, rfl⟩
      · rcases hi : context.get_register ireg with _ | iv <;> simp only [hi]
        · exact Or.inr ⟨_, rfl⟩
        · exact Or.inl ⟨_, rfl⟩

/-- When every register named by the operand is valid, address computation
succeeds. -/
theorem tryFromOperand_ok_of_valid (op : Operand) (context : MinidumpContext)
    (hvalid : operandRegsValid op context = true) :
    ∃ r, MemoryAddressInfo.try_from_operand op context = .ok r := by
  unfold MemoryAddressInfo.try_from_operand
  unfold operandRegsValid at hvalid
  rcases h : MemoryOperandInfo.try_from_operand op with _ | ⟨breg, ireg, scale, disp⟩
  · exact ⟨none, rfl⟩
  · rw [h] at hvalid
    rcases breg with _ | breg <;> rcases ireg with _ | ireg <;> dsimp only at hvalid ⊢
    · exact ⟨_, rfl⟩
    · rcases hi : context.get_register ireg with _ | iv
      · simp [hi] at hvalid
      · simp only [hi]
        exact ⟨_, rfl⟩
    · rcases hb : context.get_register breg with _ | bv
      · simp [hb] at hvalid
      · simp only [hb]
        exact ⟨_, rfl⟩
    · rcases hb : context.get_register breg with _ | bv
      · simp [hb] at hvalid
      · rcases hi : context.get_register ireg with _ | iv
        · simp [hi] at hvalid
        · simp only [hb, hi]
          exact ⟨_, rfl⟩

/-- On allowed operand positions, the source's explicit-operand match
returns exactly the direction the spec's fixed table assigns. -/
theorem derivableExplicitAccessType_eq_spec (opcode : AccessDerivableOpcode)
    (idx : Nat) (hallow : allowedMemIdx opcode idx = true) :
    derivableExplicitAccessType opcode idx = .ok (specAccessTable opcode idx) := by
  cases opcode <;> rcases idx with _ | _ | n <;>
    simp_all [allowedMemIdx, derivableExplicitAccessType, specAccessTable] <;> omega

/-- The spec's fixed table never assigns `Underivable`. -/
theorem specAccessTable_ne_underivable (opcode : AccessDerivableOpcode)
    (idx : Nat) (t : MemoryAccessType)
    (h : specAccessTable opcode idx = some t) : t ≠ .Underivable := by
  cases opcode <;> rcases idx with _ | _ | n <;> simp_all [specAccessTable] <;>
    (subst h; simp)

/-- Under the decoder's operand-shape invariant and with all memory-operand
registers valid, the source's explicit-access loop computes exactly the
accesses predicted by the spec's fixed table. -/
theorem explicitDerivableLoop_eq_spec (opcode : AccessDerivableOpcode)
    (operands : List Operand) (idx : Nat) (mem_size : Option Nat)
    (context : MinidumpContext)
    (hshape : shapeFrom opcode operands idx = true)
    (hregs : allOperandRegsValid operands context = true) :
    MemoryAccessList.explicitDerivableLoop opcode operands idx mem_size context =
      .ok (specExplicitAccesses opcode operands idx mem_size context) := by
  induction operands generalizing idx with
  | nil => rfl
  | cons op rest ih =>
    rw [shapeFrom, Bool.and_eq_true] at hshape
    rw [allOperandRegsValid, List.all_cons, Bool.and_eq_true] at hregs
    obtain ⟨h1, h2⟩ := hshape
    obtain ⟨hv1, hv2⟩ := hregs
    have ih2 := ih (idx + 1) h2 hv2
    unfold MemoryAccessList.explicitDerivableLoop
      MemoryAccessList.add_derivable_opcode_explicit_access specExplicitAccesses
    cases hm : op.is_memory with
    | false => simp [hm, ih2]
    | true =>
      have hallow : allowedMemIdx opcode idx = true := by
        rw [hm] at h1
        simpa using h1
      rw [derivableExplicitAccessType_eq_spec opcode idx hallow]
      obtain ⟨r, hr⟩ := tryFromOperand_ok_of_valid op context hv1
      cases ht : specAccessTable opcode idx with
      | none => simp [hm, ih2]
      | some t =>
        cases r with
        | none => simp [hm, ht, hr, ih2]
        | some address_info => simp [hm, ht, hr, ih2]

/-- Under the decoder's operand-shape invariant the explicit-access loop
never panics (even when registers are invalid). -/
theorem explicitDerivableLoop_clean (opcode : AccessDerivableOpcode)
    (operands : List Operand) (idx : Nat) (mem_size : Option Nat)
    (context : MinidumpContext)
    (hshape : shapeFrom opcode operands idx = true) :
    Outcome.clean
      (MemoryAccessList.explicitDerivableLoop opcode operands idx mem_size context) := by
  induction operands generalizing idx with
  | nil => exact Or.inl ⟨_, rfl⟩
  | cons op rest ih =>
    rw [shapeFrom, Bool.and_eq_true] at hshape
    obtain ⟨h1, h2⟩ := hshape
    have ih2 := ih (idx + 1) h2
    unfold MemoryAccessList.explicitDerivableLoop
      MemoryAccessList.add_derivable_opcode_explicit_access
    cases hm : op.is_memory with
    | false =>
      simp only [hm, Bool.not_false, if_true]
      rcases ih2 with ⟨v, hv⟩ | ⟨e, he⟩
      · rw [hv]
        exact Or.inl ⟨_, rfl⟩
      · rw [he]
        exact Or.inr ⟨_, rfl⟩
    | true =>
      have hallow : allowedMemIdx opcode idx = true := by
        rw [hm] at h1
        simpa using h1
      simp only [hm, Bool.not_true, if_false]
      rw [derivableExplicitAccessType_eq_spec opcode idx hallow]
      cases ht : specAccessTable opcode idx with
      | none =>
        rcases ih2 with ⟨v, hv⟩ | ⟨e, he⟩
        · rw [hv]
          exact Or.inl ⟨_, rfl⟩
        · rw [he]
          exact Or.inr ⟨_, rfl⟩
      | some t =>
        rcases tryFromOperand_clean op context with ⟨r, hr⟩ | ⟨e, he⟩
        · rw [hr]
          cases r with
          | none =>
            rcases ih2 with ⟨v, hv⟩ | ⟨e, he⟩
            · rw [hv]
              exact Or.inl ⟨_, rfl⟩
            · rw [he]
              exact Or.inr ⟨_, rfl⟩
          | some address_info =>
            rcases ih2 with ⟨v, hv⟩ | ⟨e, he⟩
            · rw [hv]
              exact Or.inl ⟨_, rfl⟩
            · rw [he]
              exact Or.inr ⟨_, rfl⟩
        · rw [he]
          exact Or.inr ⟨_, rfl⟩

/-- The underivable-opcode loop never panics. -/
theorem underivableLoop_clean (operands : List Operand) (mem_size : Option Nat)
    (context : MinidumpContext) :
    Outcome.clean (MemoryAccessList.underivableLoop operands mem_size context) := by
  induction operands with
  | nil => exact Or.inl ⟨_, rfl⟩
  | cons op rest ih =>
    unfold MemoryAccessList.underivableLoop
      MemoryAccessList.add_underivable_opcode_explicit_access
    cases hm : op.is_memory with
    | false =>
      simp only [hm, Bool.not_false, if_true]
      rcases ih with ⟨v, hv⟩ | ⟨e, he⟩
      · rw [hv]
        exact Or.inl ⟨_, rfl⟩
      · rw [he]
        exact Or.inr ⟨_, rfl⟩
    | true =>
      simp only [hm, Bool.not_true, if_false]
      rcases tryFromOperand_clean op context with ⟨r, hr⟩ | ⟨e, he⟩
      · rw [hr]
        cases r with
        | none =>
          rcases ih with ⟨v, hv⟩ | ⟨e, he⟩
          · rw [hv]
            exact Or.inl ⟨_, rfl⟩
          · rw [he]
            exact Or.inr ⟨_, rfl⟩
        | some address_info =>
          rcases ih with ⟨v, hv⟩ | ⟨e, he⟩
          · rw [hv]
            exact Or.inl ⟨_, rfl⟩
          · rw [he]
            exact Or.inr ⟨_, rfl⟩
      · rw [he]
        exact Or.inr ⟨_, rfl⟩

/-- View of a clean outcome after the source's `.ok()` downgrade. -/
def outcomeToOption {α : Type} : Outcome α → Option α
  | .ok a => some a
  | .error _ => none

theorem catchAnalysisError_of_clean {α : Type} (o : Outcome α)
    (h : Outcome.clean o) : catchAnalysisError o = .ok (outcomeToOption o) := by
  rcases h with ⟨v, hv⟩ | ⟨e, he⟩ <;> subst_vars <;> rfl

/-- Under the decoder's operand-shape invariant, memory-access derivation
never panics. -/
theorem memoryAccessList_fromInstruction_clean (i : Instruction)
    (ctx : MinidumpContext) (hshape : decoderShape i = true) :
    Outcome.clean (MemoryAccessList.from_instruction i ctx) := by
  rw [decoderShape, Bool.and_eq_true] at hshape
  obtain ⟨h1, _⟩ := hshape
  unfold MemoryAccessList.from_instruction
  cases hop : AccessDerivableOpcode.from_opcode i.opcode with
  | some adop =>
    rw [hop] at h1
    unfold MemoryAccessList.add_derivable_opcode_accesses
    cases hms : i.mem_size with
    | none => exact Or.inl ⟨_, rfl⟩
    | some msz =>
      dsimp only
      rcases explicitDerivableLoop_clean adop i.operands 0 msz ctx h1 with ⟨v, hv⟩ | ⟨e, he⟩
      · rw [hv]
        exact Or.inl ⟨_, rfl⟩
      · rw [he]
        exact Or.inr ⟨_, rfl⟩
  | none =>
    unfold MemoryAccessList.add_underivable_opcode_accesses
    cases hms : i.mem_size with
    | none => exact Or.inl ⟨_, rfl⟩
    | some msz =>
      dsimp only
      rcases underivableLoop_clean i.operands msz ctx with ⟨v, hv⟩ | ⟨e, he⟩
      · rw [hv]
        exact Or.inl ⟨_, rfl⟩
      · rw [he]
        exact Or.inr ⟨_, rfl⟩

/-- Under the decoder's operand-count invariant, instruction-pointer-update
derivation never panics. -/
theorem ipu_fromInstruction_clean (i : Instruction) (ctx : MinidumpContext)
    (ml : Option UnifiedMemoryList) (sm : Option MinidumpMemory)
    (hshape : decoderShape i = true) :
    Outcome.clean (InstructionPointerUpdate.from_instruction i ctx ml sm) := by
  rw [decoderShape, Bool.and_eq_true] at hshape
  obtain ⟨_, h2⟩ := hshape
  rcases i with ⟨opc, ops, ms⟩
  unfold InstructionPointerUpdate.from_instruction
  cases opc
  all_goals try exact Or.inl ⟨_, rfl⟩
  all_goals
    first
      | (rcases hrsp : ctx.get_register "rsp" with _ | rsp <;>
           rcases sm with _ | stack <;> simp only [hrsp] <;>
           first
             | exact Or.inl ⟨_, rfl⟩
             | (rcases hread : stack.get_u64_at rsp with _ | v <;> simp only [hread] <;>
                  exact Or.inl ⟨_, rfl⟩))
      | skip
  all_goals replace h2 : ops.length = 1 := by simpa using h2
  all_goals rcases ops with _ | ⟨op, _ | ⟨op2, rest2⟩⟩
  all_goals try simp at h2
  all_goals try dsimp only
  all_goals have hc := tryFromOperand_clean op ctx
  all_goals cases op
  all_goals try dsimp only
  all_goals
    first
      | (rename_i reg hleft
         unfold MinidumpContext.get_regspec
         rcases hr : ctx.get_register reg with _ | v
         · simp only [hr]
           exact Or.inr ⟨_, rfl⟩
         · simp only [hr]
           exact Or.inl ⟨_, rfl⟩)
      | (rcases hc with ⟨r, hr⟩ | ⟨e, he⟩
         · cases r with
           | none =>
             rw [hr]
             exact Or.inl ⟨_, rfl⟩
           | some address_info =>
             rw [hr]
             dsimp only
             split <;> exact Or.inl ⟨_, rfl⟩
         · rw [he]
           exact Or.inr ⟨_, rfl⟩)

/-- Under the decoder invariant, `analyze_instruction` succeeds and its
fields are exactly the (error-downgraded) sub-analysis results. -/
theorem analyze_instruction_eq (i : Instruction) (ctx : MinidumpContext)
    (ml : Option UnifiedMemoryList) (sm : Option MinidumpMemory)
    (hshape : decoderShape i = true) :
    analyze_instruction i ctx ml sm =
      .ok { instruction_properties := InstructionProperties.from_instruction i
            memory_access_list :=
              outcomeToOption (MemoryAccessList.from_instruction i ctx)
            instruction_pointer_update :=
              (outcomeToOption
                (InstructionPointerUpdate.from_instruction i ctx ml sm)).join
            registers := get_registers i } := by
  unfold analyze_instruction
  rw [catchAnalysisError_of_clean _ (memoryAccessList_fromInstruction_clean i ctx hshape)]
  rw [catchAnalysisError_of_clean _ (ipu_fromInstruction_clean i ctx ml sm hshape)]

/-- Wrapped address arithmetic: the source's chained wrapping operations
equal the mathematical sum reduced modulo `2 ^ 64`, with the displacement
interpreted as a signed integer. -/
theorem wrapped_addr_eq (base p : Nat) (d : Int) :
    ((wAdd (wAdd base (p % U64)) (intAsU64 d) : Nat) : Int) =
      ((base : Int) + p + d) % (2 ^ 64 : Int) := by
  unfold wAdd intAsU64 U64
  omega

/-- The enumerated ring-0 opcode set, as listed in the source's
`is_privileged` match (IO-port, descriptor-table, VMX, model-specific
register instructions and the like — including, as the source does, the
general-purpose `MOV` opcode). -/
def privilegedOpcodeList : List Opcode :=
  [.CLI, .CLTS, .HLT, .IN, .INS, .INT, .INTO, .INVD, .INVEPT, .INVLPG,
   .INVVPID, .IRET, .IRETD, .IRETQ, .LGDT, .LIDT, .LLDT, .LMSW, .LTR,
   .MONITOR, .MOV, .MWAIT, .OUT, .OUTS, .RDMSR, .RDPMC, .RDTSC, .RDTSCP,
   .RETF, .STI, .SWAPGS, .SYSEXIT, .SYSRET, .VMCALL, .VMCLEAR, .VMLAUNCH,
   .VMPTRLD, .VMPTRST, .VMREAD, .VMRESUME, .VMWRITE, .VMXOFF, .VMXON,
   .WBINVD, .WRMSR, .XSETBV]

/-- C9: for every decoded x86_64 instruction, `is_privileged` is true
exactly when the opcode belongs to the enumerated ring-0 set; in
particular the general-purpose MOV opcode is in the set, so a MOV
instruction has `is_privileged = true`. -/
theorem claim_C9 :
    (∀ i : Instruction, i.is_privileged = privilegedOpcodeList.contains i.opcode) ∧
    (Instruction.mk .MOV [] none).is_privileged = true := by
  constructor
  · intro i
    rcases i with ⟨opc, ops, ms⟩
    cases opc <;> rfl
  · rfl

/-- C5: whenever address computation for a memory operand produces a
`MemoryAddressInfo`, its `is_likely_null_pointer_dereference` flag is set
exactly when the operand has a base register whose value in the context is
0 — regardless of any displacement or index contribution. -/
theorem claim_C5 (op : Operand) (context : MinidumpContext)
    (ai : MemoryAddressInfo)
    (h : MemoryAddressInfo.try_from_operand op context = .ok (some ai)) :
    ai.is_likely_null_pointer_dereference = true ↔
      ∃ info reg, MemoryOperandInfo.try_from_operand op = some info ∧
        info.base_reg = some reg ∧ context.get_register reg = some 0 := by
  unfold MemoryAddressInfo.try_from_operand at h
  rcases hmo : MemoryOperandInfo.try_from_operand op with _ | ⟨breg, ireg, scale, disp⟩ <;>
    rw [hmo] at h <;> dsimp only at h
  · simp at h
  · rcases breg with _ | breg <;> rcases ireg with _ | ireg <;> dsimp only at h
    · simp only [Except.ok.injEq, Option.some.injEq] at h
      subst h
      simp [hmo]
    · rcases hi : context.get_register ireg with _ | iv <;> rw [hi] at h
      · simp at h
      · simp only [Except.ok.injEq, Option.some.injEq] at h
        subst h
        simp [hmo]
    · rcases hb : context.get_register breg with _ | bv <;> rw [hb] at h
      · simp at h
      · simp only [Except.ok.injEq, Option.some.injEq] at h
        subst h
        simp [hmo, hb, beq_iff_eq]
    · rcases hb : context.get_register breg with _ | bv <;> rw [hb] at h
      · simp at h
      · rcases hi : context.get_register ireg with _ | iv <;> rw [hi] at h
        · simp at h
        · simp only [Except.ok.injEq, Option.some.injEq] at h
          subst h
          simp [hmo, hb, beq_iff_eq]

/-- Context for the S4 scenario: `rbx = 0`, nothing else valid. -/
def nullDerefContext : MinidumpContext :=
  { arch := .Amd64
    instruction_pointer := 0
    get_register := fun r => if r = "rbx" then some 0 else none }

/-- Witness for C5 at the S4 scenario `mov rax, [rbx + 0x10]` with
`rbx = 0`: the computed info has the null-pointer flag set and the base
register is `rbx` with value 0. -/
theorem claim_C5_witness :
    ∃ info reg, MemoryOperandInfo.try_from_operand (Operand.Disp "rbx" 0x10) = some info ∧
      info.base_reg = some reg ∧ nullDerefContext.get_register reg = some 0 :=
  (claim_C5 (Operand.Disp "rbx" 0x10) nullDerefContext
    ⟨0x10, true, false⟩ rfl).mp rfl

/-- Wrapped address arithmetic without an index contribution. -/
theorem wrapped_addr_eq_noindex (base : Nat) (d : Int) :
    ((wAdd base (intAsU64 d) : Nat) : Int) = ((base : Int) + d) % (2 ^ 64 : Int) := by
  unfold wAdd intAsU64 U64
  omega

/-- Context for the S2 scenario: `r9 = 0x100001`, `rbx = 0x1000`. -/
def movS2_context : MinidumpContext :=
  { arch := .Amd64
    instruction_pointer := 0
    get_register := fun r =>
      if r = "r9" then some 0x100001 else if r = "rbx" then some 0x1000 else none }

/-- The decoded form of the bytes `49 8b 84 d9 ff ff ff 7f`:
`mov rax, [r9 + rbx * 8 + 0x7fffffff]`, an 8-byte memory access. -/
def movS2_instruction : Instruction :=
  { opcode := .MOV
    operands := [.Register "rax", .MemBaseIndexScaleDisp "r9" "rbx" 8 0x7fffffff]
    mem_size := some (some 8) }

/-- C3: for every memory operand with all named registers valid, the
computed address equals base (0 if absent) plus index times scale (0 if
absent) plus the sign-extended displacement (0 if absent), reduced modulo
`2 ^ 64`; concretely, for the decoded form of `49 8b 84 d9 ff ff ff 7f`
with `r9 = 0x100001` and `rbx = 0x1000` the analyzer records the single
access — a Read of size 8 at `0x80108000`. -/
theorem claim_C3 :
    (∀ (op : Operand) (context : MinidumpContext) (info : MemoryOperandInfo)
        (baseV idxV : Nat),
      MemoryOperandInfo.try_from_operand op = some info →
      (match info.base_reg with
       | some reg => context.get_register reg = some baseV
       | none => baseV = 0) →
      (match info.index_reg with
       | some reg => context.get_register reg = some idxV
       | none => idxV = 0) →
      ∃ ai, MemoryAddressInfo.try_from_operand op context = .ok (some ai) ∧
        (ai.address : Int) =
          ((baseV : Int) + (idxV : Int) * ((info.scale.getD 1 : Nat) : Int) +
            info.disp.getD 0) % (2 ^ 64 : Int)) ∧
    (analyze_instruction movS2_instruction movS2_context none none).map
        (fun oa => oa.memory_access_list) =
      .ok (some ⟨[{ address_info := ⟨0x80108000, false, false⟩, size := some 8,
                    access_type := .Read }]⟩) := by
  constructor
  · intro op context info baseV idxV hmo hbase hidx
    unfold MemoryAddressInfo.try_from_operand
    rw [hmo]
    rcases info with ⟨breg, ireg, scale, disp⟩
    rcases breg with _ | breg <;> rcases ireg with _ | ireg <;>
      dsimp only at hbase hidx ⊢
    · subst hbase
      subst hidx
      refine ⟨_, rfl, ?_⟩
      rw [wrapped_addr_eq_noindex]
      congr 1
      push_cast
      ring
    · subst hbase
      rw [hidx]
      refine ⟨_, rfl, ?_⟩
      dsimp only
      rw [show wMul idxV (Option.getD scale 1) =
            (idxV * (Option.getD scale 1)) % U64 from rfl]
      rw [wrapped_addr_eq]
      push_cast
      ring_nf
    · subst hidx
      rw [hbase]
      refine ⟨_, rfl, ?_⟩
      dsimp only
      rw [wrapped_addr_eq_noindex]
      congr 1
      push_cast
      ring
    · rw [hbase, hidx]
      refine ⟨_, rfl, ?_⟩
      dsimp only
      rw [show wMul idxV (Option.getD scale 1) =
            (idxV * (Option.getD scale 1)) % U64 from rfl]
      rw [wrapped_addr_eq]
      push_cast
      ring_nf
  · rfl

/-- Witness for C3 at the S2 operand with `r9 = 0x100001`, `rbx = 0x1000`:
the address computes successfully to the modular sum. -/
theorem claim_C3_witness :
    ∃ ai, MemoryAddressInfo.try_from_operand
        (Operand.MemBaseIndexScaleDisp "r9" "rbx" 8 0x7fffffff) movS2_context =
          .ok (some ai) ∧
      (ai.address : Int) =
        ((0x100001 : Int) + (0x1000 : Int) * ((8 : Nat) : Int) + (0x7fffffff : Int)) %
          (2 ^ 64 : Int) :=
  claim_C3.1 (Operand.MemBaseIndexScaleDisp "r9" "rbx" 8 0x7fffffff) movS2_context
    ⟨some "r9", some "rbx", some 8, some 0x7fffffff⟩ 0x100001 0x1000 rfl rfl rfl

/-- Context for the S3 scenario: `rsp = 0x1000`, nothing else valid. -/
def pushS3_context : MinidumpContext :=
  { arch := .Amd64
    instruction_pointer := 0
    get_register := fun r => if r = "rsp" then some 0x1000 else none }

/-- The decoded form of the byte `50`: `push rax`, an 8-byte (pointer
sized) memory access with a register operand. -/
def pushS3_instruction : Instruction :=
  { opcode := .PUSH
    operands := [.Register "rax"]
    mem_size := some (some 8) }

/-- C2: whenever memory-access derivation succeeds for a PUSH or CALL
instruction with a valid `rsp`, the list contains an implicit Write at
`rsp - 8`; for POP, RETURN or RETF it contains an implicit Read at `rsp`.
Concretely, for `push rax` (byte `50`) with `rsp = 0x1000` the analyzer's
memory-access list is exactly one Write of size 8 at `0x0ff8` — and so
contains no Read. -/
theorem claim_C2 :
    (∀ (i : Instruction) (ctx : MinidumpContext) (adop : AccessDerivableOpcode)
        (msz : Option Nat) (rsp : Nat) (l : MemoryAccessList),
      AccessDerivableOpcode.from_opcode i.opcode = some adop →
      i.mem_size = some msz →
      ctx.get_register "rsp" = some rsp →
      8 ≤ rsp → rsp < U64 →
      MemoryAccessList.from_instruction i ctx = .ok l →
      ((adop = .PUSH ∨ adop = .CALL →
        ({ address_info := { address := rsp - 8
                             is_likely_null_pointer_dereference := rsp - 8 == 0
                             is_likely_guard_page := false }
           size := msz
           access_type := .Write } : MemoryAccess) ∈ l.accesses) ∧
       (adop = .POP ∨ adop = .RETURN ∨ adop = .RETF →
        ({ address_info := { address := rsp
                             is_likely_null_pointer_dereference := rsp == 0
                             is_likely_guard_page := false }
           size := msz
           access_type := .Read } : MemoryAccess) ∈ l.accesses))) ∧
    (analyze_instruction pushS3_instruction pushS3_context none none).map
        (fun oa => oa.memory_access_list) =
      .ok (some ⟨[{ address_info := ⟨0x0ff8, false, false⟩, size := some 8,
                    access_type := .Write }]⟩) := by
  constructor
  · intro i ctx adop msz rsp l hop hms hrsp hge hlt hok
    have hws : wSub rsp 8 = rsp - 8 := by
      unfold wSub U64 at *
      omega
    unfold MemoryAccessList.from_instruction at hok
    rw [hop] at hok
    unfold MemoryAccessList.add_derivable_opcode_accesses at hok
    rw [hms] at hok
    dsimp only at hok
    rcases hexp : MemoryAccessList.explicitDerivableLoop adop i.operands 0 msz ctx
      with ⟨e⟩ | ⟨explicit⟩ <;> rw [hexp] at hok
    · simp at hok
    · simp only [Except.ok.injEq] at hok
      subst hok
      constructor
      · rintro (rfl | rfl) <;>
          (unfold MemoryAccessList.add_derivable_opcode_implicit_access
           rw [hrsp]
           dsimp only
           rw [hws]
           exact List.mem_append_right _ (List.mem_singleton.mpr rfl))
      · rintro (rfl | rfl | rfl) <;>
          (unfold MemoryAccessList.add_derivable_opcode_implicit_access
           rw [hrsp]
           dsimp only
           exact List.mem_append_right _ (List.mem_singleton.mpr rfl))
  · rfl

/-- Witness for C2 at the S3 scenario: the implicit Write at
`0x1000 - 8 = 0x0ff8` is on the derived list. -/
theorem claim_C2_witness :
    ({ address_info := { address := 0x0ff8
                         is_likely_null_pointer_dereference := false
                         is_likely_guard_page := false }
       size := some 8
       access_type := .Write } : MemoryAccess) ∈
      (MemoryAccessList.mk
        [{ address_info := ⟨0x0ff8, false, false⟩, size := some 8,
           access_type := .Write }]).accesses :=
  (claim_C2.1 pushS3_instruction pushS3_context .PUSH (some 8) 0x1000
    ⟨[{ address_info := ⟨0x0ff8, false, false⟩, size := some 8,
        access_type := .Write }]⟩
    rfl rfl rfl (by norm_num) (by norm_num [U64]) rfl).1 (Or.inl rfl)

/-- No access predicted by the spec's explicit table is `Underivable`. -/
theorem specExplicitAccesses_ne_underivable (opcode : AccessDerivableOpcode)
    (operands : List Operand) (idx : Nat) (mem_size : Option Nat)
    (context : MinidumpContext) :
    ∀ a ∈ specExplicitAccesses opcode operands idx mem_size context,
      a.access_type ≠ .Underivable := by
  induction operands generalizing idx with
  | nil =>
    intro a ha
    simp [specExplicitAccesses] at ha
  | cons op rest ih =>
    intro a ha
    unfold specExplicitAccesses at ha
    rw [List.mem_append] at ha
    rcases ha with ha | ha
    · by_cases hm : op.is_memory = true
      · rw [if_pos hm] at ha
        cases ht : specAccessTable opcode idx with
        | none =>
          rw [ht] at ha
          simp at ha
        | some t =>
          rw [ht] at ha
          dsimp only at ha
          split at ha
          · rw [List.mem_singleton] at ha
            subst ha
            exact specAccessTable_ne_underivable opcode idx t ht
          · simp at ha
      · rw [if_neg hm] at ha
        simp at ha
    · exact ih (idx + 1) a ha

/-- No implicit stack access is `Underivable` (they are Writes or Reads). -/
theorem implicitAccesses_ne_underivable (opcode : AccessDerivableOpcode)
    (mem_size : Option Nat) (context : MinidumpContext) :
    ∀ a ∈ MemoryAccessList.add_derivable_opcode_implicit_access opcode mem_size context,
      a.access_type ≠ .Underivable := by
  intro a ha
  unfold MemoryAccessList.add_derivable_opcode_implicit_access at ha
  cases opcode <;> dsimp only at ha
  all_goals try simp at ha
  all_goals
    rcases hrsp : context.get_register "rsp" with _ | rsp <;> rw [hrsp] at ha <;>
      dsimp only at ha <;> simp_all

/-- A context in which no register is valid. -/
def invalidRegContext : MinidumpContext :=
  { arch := .Amd64
    instruction_pointer := 0
    get_register := fun _ => none }

/-- The decoded form of `mov al, [rbx]`: a whitelisted opcode with an
explicit memory operand. -/
def movDerefInstruction : Instruction :=
  { opcode := .MOV
    operands := [.Register "al", .MemDeref "rbx"]
    mem_size := some (some 1) }

/-- C1 counterexample: for a whitelisted opcode (MOV) with a memory
operand, analyzed against a context in which the base register is not
valid, `analyze_instruction` succeeds but returns
`memory_access_list = none` — not `Some` as the claim states for every
decoded instruction. -/
theorem claim_C1_counterexample :
    AccessDerivableOpcode.from_opcode movDerefInstruction.opcode = some .MOV ∧
    movDerefInstruction.operands.any (fun op => op.is_memory) = true ∧
    (analyze_instruction movDerefInstruction invalidRegContext none none).map
        (fun oa => oa.memory_access_list) = .ok none :=
  ⟨rfl, rfl, rfl⟩

/-- C1 (amended): for every decoded x86_64 instruction of decoder shape
whose opcode is in the access-derivable whitelist and that performs a
memory access, provided every register named by a memory operand is valid
in the context, `analyze_instruction` returns `memory_access_list = Some`,
the explicit entries follow the spec's fixed direction table (followed by
the implicit stack entries), and no entry has `access_type =
Underivable`. -/
theorem claim_C1 (i : Instruction) (ctx : MinidumpContext)
    (ml : Option UnifiedMemoryList) (sm : Option MinidumpMemory)
    (adop : AccessDerivableOpcode) (msz : Option Nat)
    (hshape : decoderShape i = true)
    (hop : AccessDerivableOpcode.from_opcode i.opcode = some adop)
    (hms : i.mem_size = some msz)
    (hregs : allOperandRegsValid i.operands ctx = true) :
    ∃ oa l, analyze_instruction i ctx ml sm = .ok oa ∧
      oa.memory_access_list = some l ∧
      l.accesses = specExplicitAccesses adop i.operands 0 msz ctx ++
        MemoryAccessList.add_derivable_opcode_implicit_access adop msz ctx ∧
      ∀ a ∈ l.accesses, a.access_type ≠ .Underivable := by
  have hsf : shapeFrom adop i.operands 0 = true := by
    rw [decoderShape, Bool.and_eq_true] at hshape
    have h1 := hshape.1
    rw [hop] at h1
    exact h1
  have hfi : MemoryAccessList.from_instruction i ctx =
      .ok ⟨specExplicitAccesses adop i.operands 0 msz ctx ++
           MemoryAccessList.add_derivable_opcode_implicit_access adop msz ctx⟩ := by
    unfold MemoryAccessList.from_instruction
    rw [hop]
    unfold MemoryAccessList.add_derivable_opcode_accesses
    rw [hms]
    dsimp only
    rw [explicitDerivableLoop_eq_spec adop i.operands 0 msz ctx hsf hregs]
  have hshape2 : decoderShape i = true := by
    rw [decoderShape, Bool.and_eq_true]
    rw [decoderShape, Bool.and_eq_true] at hshape
    exact hshape
  refine ⟨_,
    ⟨specExplicitAccesses adop i.operands 0 msz ctx ++
      MemoryAccessList.add_derivable_opcode_implicit_access adop msz ctx⟩,
    analyze_instruction_eq i ctx ml sm hshape2, ?_, rfl, ?_⟩
  · dsimp only
    rw [hfi]
    rfl
  · intro a ha
    rw [List.mem_append] at ha
    rcases ha with ha | ha
    · exact specExplicitAccesses_ne_underivable adop i.operands 0 msz ctx a ha
    · exact implicitAccesses_ne_underivable adop msz ctx a ha

/-- Witness for C1 at the S2 MOV instruction: the access list is `Some`,
follows the table, and contains no `Underivable` entry. -/
theorem claim_C1_witness :
    ∃ oa l, analyze_instruction movS2_instruction movS2_context none none = .ok oa ∧
      oa.memory_access_list = some l ∧
      l.accesses =
        specExplicitAccesses .MOV movS2_instruction.operands 0 (some 8) movS2_context ++
          MemoryAccessList.add_derivable_opcode_implicit_access .MOV (some 8)
            movS2_context ∧
      ∀ a ∈ l.accesses, a.access_type ≠ .Underivable :=
  claim_C1 movS2_instruction movS2_context none none .MOV (some 8) rfl rfl rfl rfl

/-- Whether the opcode is a conditional branch (Jcc). -/
def isJcc : Opcode → Bool
  | .JO | .JNO | .JB | .JNB | .JZ | .JNZ | .JA | .JNA | .JS | .JNS | .JP | .JNP
  | .JL | .JGE | .JG | .JLE => true
  | _ => false

/-- Whether the opcode is in the RET family handled by the analyzer. -/
def isRetFamily : Opcode → Bool
  | .RETURN | .RETF | .IRET | .IRETD | .IRETQ => true
  | _ => false

/-- Whether the opcode is in the CALL/JMP family handled by the analyzer. -/
def isCallJmpFamily : Opcode → Bool
  | .CALL | .CALLF | .JMP | .JMPF | .JMPE => true
  | _ => false

/-- C4: derivation of the instruction-pointer update.  Conditional
branches yield `Ok(None)` (undetermined, never `Some(NoUpdate)`); the RET
family with a valid `rsp` and a readable stack slot yields the
pointer-sized value at `rsp`; the CALL/JMP family with a register operand
yields that register's value, and with a memory operand whose target slot
is captured yields the pointer-sized value at the computed address; every
other opcode yields `Some(NoUpdate)`. -/
theorem claim_C4 (i : Instruction) (ctx : MinidumpContext)
    (ml : Option UnifiedMemoryList) (sm : Option MinidumpMemory) :
    (isJcc i.opcode = true →
      InstructionPointerUpdate.from_instruction i ctx ml sm = .ok none) ∧
    (∀ rsp stack v, isRetFamily i.opcode = true →
      ctx.get_register "rsp" = some rsp → sm = some stack →
      stack.get_u64_at rsp = some v →
      InstructionPointerUpdate.from_instruction i ctx ml sm =
        .ok (some (.Update ⟨v, v == 0, false⟩))) ∧
    (∀ reg v, isCallJmpFamily i.opcode = true →
      i.operands = [.Register reg] → ctx.get_register reg = some v →
      InstructionPointerUpdate.from_instruction i ctx ml sm =
        .ok (some (.Update ⟨v, v == 0, false⟩))) ∧
    (∀ op ai v, isCallJmpFamily i.opcode = true →
      i.operands = [op] → op.is_memory = true →
      MemoryAddressInfo.try_from_operand op ctx = .ok (some ai) →
      (ml.bind (fun m => m.memory_at_address ai.address)).bind
          (fun mem => mem.get_u64_at ai.address) = some v →
      InstructionPointerUpdate.from_instruction i ctx ml sm =
        .ok (some (.Update ⟨v, v == 0, false⟩))) ∧
    (isCallJmpFamily i.opcode = false → isRetFamily i.opcode = false →
      isJcc i.opcode = false →
      InstructionPointerUpdate.from_instruction i ctx ml sm =
        .ok (some .NoUpdate)) := by
  rcases i with ⟨opc, ops, ms⟩
  unfold InstructionPointerUpdate.from_instruction
  refine ⟨?_, ?_, ?_, ?_, ?_⟩
  · intro hj
    cases opc <;> first | rfl | (simp [isJcc] at hj; done)
  · intro rsp stack v hret hrsp hsm hread
    subst hsm
    cases opc <;>
      first
        | (simp only [hrsp]
           try dsimp only
           rw [hread])
        | (simp [isRetFamily] at hret; done)
  · intro reg v hcall hops hreg
    subst hops
    cases opc <;>
      first
        | (try dsimp only
           unfold MinidumpContext.get_regspec
           rw [hreg])
        | (simp [isCallJmpFamily] at hcall; done)
  · intro op ai v hcall hops hmem htry hlookup
    subst hops
    cases opc <;>
      first
        | (cases op <;>
            first
              | (simp [Operand.is_memory] at hmem; done)
              | (try dsimp only
                 rw [htry]
                 try dsimp only
                 rw [hlookup]))
        | (simp [isCallJmpFamily] at hcall; done)
  · intro h1 h2 h3
    cases opc <;>
      first
        | rfl
        | (simp [isCallJmpFamily] at h1; done)
        | (simp [isRetFamily] at h2; done)
        | (simp [isJcc] at h3; done)

/-- Context for the C4 witness: `rax = 0x1234`. -/
def jmpWitnessContext : MinidumpContext :=
  { arch := .Amd64
    instruction_pointer := 0
    get_register := fun r => if r = "rax" then some 0x1234 else none }

/-- Witness for C4: `jmp rax` with `rax = 0x1234` yields an instruction
pointer update to `0x1234`. -/
theorem claim_C4_witness :
    InstructionPointerUpdate.from_instruction
        ⟨.JMP, [.Register "rax"], none⟩ jmpWitnessContext none none =
      .ok (some (.Update ⟨0x1234, false, false⟩)) :=
  (claim_C4 ⟨.JMP, [.Register "rax"], none⟩ jmpWitnessContext none none).2.2.1
    "rax" 0x1234 rfl rfl rfl

/-- C10: for RET-family instructions, an invalid `rsp`, an absent stack
memory, or an unreadable 8-byte slot at `rsp` each yield `Ok(None)`
(undetermined) — not `Some(NoUpdate)` and not an error; likewise a
CALL/JMP through a memory operand whose target slot is not captured in the
memory list yields `Ok(None)`. -/
theorem claim_C10 (i : Instruction) (ctx : MinidumpContext)
    (ml : Option UnifiedMemoryList) (sm : Option MinidumpMemory) :
    (isRetFamily i.opcode = true → ctx.get_register "rsp" = none →
      InstructionPointerUpdate.from_instruction i ctx ml sm = .ok none) ∧
    (isRetFamily i.opcode = true → sm = none →
      InstructionPointerUpdate.from_instruction i ctx ml sm = .ok none) ∧
    (∀ rsp stack, isRetFamily i.opcode = true →
      ctx.get_register "rsp" = some rsp → sm = some stack →
      stack.get_u64_at rsp = none →
      InstructionPointerUpdate.from_instruction i ctx ml sm = .ok none) ∧
    (∀ op ai, isCallJmpFamily i.opcode = true →
      i.operands = [op] → op.is_memory = true →
      MemoryAddressInfo.try_from_operand op ctx = .ok (some ai) →
      (ml.bind (fun m => m.memory_at_address ai.address)).bind
          (fun mem => mem.get_u64_at ai.address) = none →
      InstructionPointerUpdate.from_instruction i ctx ml sm = .ok none) := by
  rcases i with ⟨opc, ops, ms⟩
  unfold InstructionPointerUpdate.from_instruction
  refine ⟨?_, ?_, ?_, ?_⟩
  · intro hret hrsp
    cases opc <;>
      first
        | (simp only [hrsp]
           try dsimp only
           try rfl
           done)
        | (simp [isRetFamily] at hret; done)
  · intro hret hsm
    subst hsm
    cases opc <;>
      first
        | (rcases hrsp : ctx.get_register "rsp" with _ | rsp <;> simp only [hrsp] <;> rfl)
        | (simp [isRetFamily] at hret; done)
  · intro rsp stack hret hrsp hsm hread
    subst hsm
    cases opc <;>
      first
        | (simp only [hrsp]
           try dsimp only
           rw [hread])
        | (simp [isRetFamily] at hret; done)
  · intro op ai hcall hops hmem htry hlookup
    subst hops
    cases opc <;>
      first
        | (cases op <;>
            first
              | (simp [Operand.is_memory] at hmem; done)
              | (try dsimp only
                 rw [htry]
                 try dsimp only
                 rw [hlookup]))
        | (simp [isCallJmpFamily] at hcall; done)

/-- Witness for C10: a RET with no stack memory supplied yields `Ok(None)`
(rsp is valid here, the stack is absent). -/
theorem claim_C10_witness :
    InstructionPointerUpdate.from_instruction ⟨.RETURN, [], none⟩
        pushS3_context none none = .ok none :=
  (claim_C10 ⟨.RETURN, [], none⟩ pushS3_context none none).2.1 rfl rfl

/-- Fetching the instruction bytes is success or a declared error. -/
theorem get_thread_instruction_bytes_clean (context : MinidumpContext)
    (memory_list : UnifiedMemoryList) :
    Outcome.clean (get_thread_instruction_bytes context memory_list) := by
  unfold get_thread_instruction_bytes
  cases h : memory_list.memory_at_address context.instruction_pointer with
  | some memory => exact Or.inl ⟨_, rfl⟩
  | none => exact Or.inr ⟨_, rfl⟩

/-- C6: for every input byte sequence (equivalently, every outcome of the
external decoder whose successful results have the operand shape the
x86_64 decoder guarantees) and every CPU context, memory list and stack
memory, `analyze_thread_context` either returns an `OpAnalysis` value or
one of the declared `OpAnalysisError` variants — it never hits a
`panic!`/`assert!` site. -/
theorem claim_C6 (decode : List Nat → Except OpAnalysisError Instruction)
    (context : MinidumpContext) (memory_list : UnifiedMemoryList)
    (stack_memory : Option MinidumpMemory)
    (hdec : ∀ bytes i, decode bytes = .ok i → decoderShape i = true) :
    (∃ oa, analyze_thread_context decode context memory_list stack_memory = .ok oa) ∨
      ∃ e, analyze_thread_context decode context memory_list stack_memory =
        .error (.err e) := by
  unfold analyze_thread_context
  rcases get_thread_instruction_bytes_clean context memory_list with ⟨bytes, hb⟩ | ⟨e, he⟩
  · rw [hb]
    dsimp only
    cases harch : context.arch
    · dsimp only
      cases hd : decode bytes with
      | ok instr =>
        dsimp only
        rw [analyze_instruction_eq instr context (some memory_list) stack_memory
          (hdec bytes instr hd)]
        exact Or.inl ⟨_, rfl⟩
      | error e => exact Or.inr ⟨e, rfl⟩
    · exact Or.inr ⟨.UnsupportedCpuArch, rfl⟩
  · rw [he]
    exact Or.inr ⟨e, rfl⟩

/-- Witness for C6: an empty memory list (the instruction fetch fails with
a declared error) under a decoder that refuses everything. -/
theorem claim_C6_witness :
    (∃ oa, analyze_thread_context (fun _ => .error .DecodeFailed)
        invalidRegContext ⟨[]⟩ none = .ok oa) ∨
      ∃ e, analyze_thread_context (fun _ => .error .DecodeFailed)
        invalidRegContext ⟨[]⟩ none = .error (.err e) :=
  claim_C6 (fun _ => .error .DecodeFailed) invalidRegContext ⟨[]⟩ none
    (fun _ i h => Except.noConfusion h)

/-- C7: for every dump whose Breakpad-info stream declares a dump thread
id, the processing loop emits, at that thread's position, a stack with
`info = DumpThreadSkipped` and an empty frame list, and still emits one
stack per input thread in input order, the other threads processed
normally. -/
theorem claim_C7
    (dump_thread_id crashing_thread_id requesting_thread_id : Option Nat)
    (exception_context : Option Nat) (memory_at : Nat → Option Nat)
    (walk : Option Nat → Option Nat → ProcCallStack)
    (get_name : Nat → Option String) (get_last_error : Nat → Option Nat)
    (threads : List MinidumpThreadRec) :
    (processThreads dump_thread_id crashing_thread_id requesting_thread_id
        exception_context memory_at walk get_name get_last_error threads).length =
      threads.length ∧
    ∀ (idx : Nat) (t : MinidumpThreadRec), threads[idx]? = some t →
      (dump_thread_id = some t.thread_id →
        (processThreads dump_thread_id crashing_thread_id requesting_thread_id
            exception_context memory_at walk get_name get_last_error threads)[idx]? =
          some ({ info := .DumpThreadSkipped, frames := [], thread_name := none,
                  last_error_value := none } : ProcCallStack)) ∧
      (dump_thread_id ≠ some t.thread_id →
        (processThreads dump_thread_id crashing_thread_id requesting_thread_id
            exception_context memory_at walk get_name get_last_error threads)[idx]? =
          some (processOneThread dump_thread_id crashing_thread_id
            requesting_thread_id exception_context memory_at walk get_name
            get_last_error t)) := by
  unfold processThreads
  refine ⟨List.length_map _ _, ?_⟩
  intro idx t ht
  constructor
  · intro hdump
    rw [List.getElem?_map, ht]
    unfold processOneThread
    simp only [Option.map_some']
    rw [if_pos hdump]
    rfl
  · intro hdump
    rw [List.getElem?_map, ht]
    rfl

/-- Witness for C7: a two-thread list where thread id 2 is the declared
dump thread; its output stack is skipped with zero frames. -/
theorem claim_C7_witness :
    (processThreads (some 2) (some 1) none none (fun _ => none)
        (fun _ _ => { info := .Ok, frames := [7], thread_name := none,
                      last_error_value := none })
        (fun _ => none) (fun _ => none)
        [⟨1, some 10, some 20, 0⟩, ⟨2, some 11, some 21, 0⟩])[1]? =
      some ({ info := .DumpThreadSkipped, frames := [], thread_name := none,
              last_error_value := none } : ProcCallStack) :=
  ((claim_C7 (some 2) (some 1) none none (fun _ => none)
      (fun _ _ => { info := .Ok, frames := [7], thread_name := none,
                    last_error_value := none })
      (fun _ => none) (fun _ => none)
      [⟨1, some 10, some 20, 0⟩, ⟨2, some 11, some 21, 0⟩]).2 1
    ⟨2, some 11, some 21, 0⟩ rfl).1 rfl

/-- Every frame produced by the frame-pointer chain records
`return address - 1` for a nonzero return address read from the stack,
with trust `FramePointer`. -/
theorem walkChainX86_link (fuel : Nat) (stack : MinidumpMemory)
    (modules : List MinidumpModule) (ebp esp : Nat) :
    ∀ f ∈ walkChainX86 fuel stack modules ebp esp,
      ∃ e r, stack.get_u32_at (e + 4) = some r ∧ r ≠ 0 ∧
        f.instruction = r - 1 ∧ f.trust = .FramePointer := by
  induction fuel generalizing ebp esp with
  | zero =>
    intro f hf
    simp [walkChainX86] at hf
  | succ fuel ih =>
    intro f hf
    unfold walkChainX86 at hf
    rcases h1 : stack.get_u32_at ebp with _ | saved_ebp <;> rw [h1] at hf
    · simp at hf
    rcases h2 : stack.get_u32_at (ebp + 4) with _ | ret <;> rw [h2] at hf
    · simp at hf
    dsimp only at hf
    by_cases hz : ret = 0
    · rw [if_pos hz] at hf
      simp at hf
    rw [if_neg hz] at hf
    rcases hm : moduleAt modules (ret - 1) with _ | m <;> rw [hm] at hf
    · simp at hf
    dsimp only at hf
    by_cases hesp : ebp + 8 ≤ esp
    · rw [if_pos hesp] at hf
      simp at hf
    rw [if_neg hesp] at hf
    rcases List.mem_cons.mp hf with rfl | hf2
    · exact ⟨ebp, ret, h2, hz, rfl, rfl⟩
    · exact ih saved_ebp (ebp + 8) f hf2

/-- The module list of the traditional x86 walker scenario. -/
def traditionalModules : List MinidumpModule :=
  [⟨0x40000000, 0x10000, "module1"⟩, ⟨0x50000000, 0x10000, "module2"⟩]

/-- The stack of the traditional x86 walker scenario, at base
`0x80000000`: 12 bytes of frame-0 space, the saved `%ebp` pointing at
offset 28 (`0x8000001c`), the return address `0x40008679`, 8 bytes of
frame-1 space, then a zero saved `%ebp` and zero return address marking
the end of the stack. -/
def traditionalStack : MinidumpMemory :=
  { base_address := 0x80000000
    bytes := [0, 0, 0, 0, 0, 0, 0, 0, 0, 0, 0, 0,
              0x1c, 0x00, 0x00, 0x80,
              0x79, 0x86, 0x00, 0x40,
              0, 0, 0, 0, 0, 0, 0, 0,
              0, 0, 0, 0,
              0, 0, 0, 0] }

/-- C8: every frame produced by the walker other than the context frame
records `return address - 1` as its instruction; in the traditional
two-frame x86 scenario with return address `0x40008679`, the walker yields
frame 0 with trust `Context` and instruction equal to the input `eip`
(`0x4000c7a5`), and frame 1 with trust `FramePointer` and instruction
`0x40008678`, both attributed to `module1`. -/
theorem claim_C8 :
    (∀ (eip esp ebp : Nat) (stack : MinidumpMemory)
        (modules : List MinidumpModule),
      ∀ f ∈ (walk_stack_x86 eip esp ebp stack modules).drop 1,
        ∃ e r, stack.get_u32_at (e + 4) = some r ∧ r ≠ 0 ∧
          f.instruction = r - 1 ∧ f.trust = .FramePointer) ∧
    walk_stack_x86 0x4000c7a5 0x80000000 0x8000000c traditionalStack
        traditionalModules =
      [{ instruction := 0x4000c7a5, trust := .Context, ebp := 0x8000000c,
         esp := 0x80000000, module := some ⟨0x40000000, 0x10000, "module1"⟩ },
       { instruction := 0x40008678, trust := .FramePointer, ebp := 0x8000001c,
         esp := 0x80000014, module := some ⟨0x40000000, 0x10000, "module1"⟩ }] := by
  constructor
  · intro eip esp ebp stack modules f hf
    rw [walk_stack_x86, List.drop_one, List.tail_cons] at hf
    exact walkChainX86_link 1024 stack modules ebp esp f hf
  · rfl

/-- Witness for C8: the recovered frame of the traditional scenario is
linked to a stack slot holding the return address `0x40008679`, recorded
as instruction `0x40008678`. -/
theorem claim_C8_witness :
    ∃ e r, traditionalStack.get_u32_at (e + 4) = some r ∧ r ≠ 0 ∧
      ({ instruction := 0x40008678, trust := .FramePointer, ebp := 0x8000001c,
         esp := 0x80000014,
         module := some ⟨0x40000000, 0x10000, "module1"⟩ } : StackFrameX86).instruction =
        r - 1 ∧
      ({ instruction := 0x40008678, trust := .FramePointer, ebp := 0x8000001c,
         esp := 0x80000014,
         module := some ⟨0x40000000, 0x10000, "module1"⟩ } : StackFrameX86).trust =
        .FramePointer :=
  claim_C8.1 0x4000c7a5 0x80000000 0x8000000c traditionalStack traditionalModules
    { instruction := 0x40008678, trust := .FramePointer, ebp := 0x8000001c,
      esp := 0x80000014, module := some ⟨0x40000000, 0x10000, "module1"⟩ }
    (by decide)
